import Mathlib

/-!
Shallow embedding of the EVM JSON-RPC cache layer
(`erpc/evm_json_rpc_cache.go`): the read path `Get`, the write path `Set`,
the eligibility policy `shouldCache`, `DeleteByGroupKey` and the key
generator.  External collaborators (connector, block-reference resolvers,
finality oracle, method policy registry) are modelled as unconstrained
function fields of a `CacheEnv` record; Go `(value, error)` returns become
`α × Option Err` and fallible calls become `Except Err α`.  Every operation
additionally returns the ordered list of external calls it performed
(`Event`), so that claims of the form "the resolver / the connector is not
invoked" are statable.
-/

namespace ErpcCache

/-- Opaque error values (Go `error`), identified by a message string. -/
abbrev Err := String

/-- Connector lookup indexes (`data.ConnectorMainIndex` / `data.ConnectorReverseIndex`). -/
inductive Index where
  | main
  | reverse
  deriving Repr, DecidableEq

/-- Parsed JSON-RPC request (`common.JsonRpcRequest`): the fields the cache reads. -/
structure JsonRpcRequest where
  jsonrpc : String
  id : String
  method : String
  deriving Repr, DecidableEq

/-- Parsed JSON-RPC response (`common.JsonRpcResponse`): `result` is the raw
serialized result payload (`none` models a nil `Result`), `error` the
RPC-level error object. -/
structure JsonRpcResponse where
  result : Option String
  error : Option Err
  deriving Repr, DecidableEq

/-- The `Evm` section of an upstream config; `syncing` models the
`*bool` pointer (`none` = nil pointer). -/
structure EvmUpstreamConfig where
  syncing : Option Bool
  deriving Repr, DecidableEq

/-- Upstream config as seen through `resp.Upstream().Config()`. -/
structure UpstreamConfig where
  evm : Option EvmUpstreamConfig
  deriving Repr, DecidableEq

/-- A normalized response (`common.NormalizedResponse`), opaque to the core:
emptiness predicates, the parse result of `JsonRpcResponse()`, and the
originating upstream's config (`none` models a nil upstream). -/
structure NormalizedResponse where
  isObjectNull : Bool
  isResultEmptyish : Bool
  jsonRpcResponse : Except Err JsonRpcResponse
  upstream : Option UpstreamConfig

/-- A normalized request (`common.NormalizedRequest`), opaque to the core:
network id, the parse result of `JsonRpcRequest()`, the content hash
(`CacheHash()`), the pair returned by `EvmBlockNumber()` (Go returns value
and error simultaneously), and `req.Network()`'s finality oracle
(`none` models a nil network). -/
structure NormalizedRequest where
  networkId : String
  jsonRpcRequest : Except Err JsonRpcRequest
  cacheHash : Except Err String
  evmBlockNumber : Int × Option Err
  network : Option (Int → Bool × Option Err)

/-- The external collaborators of the cache: the connector (storage +
method policy registry), the block-reference resolvers, the
cache-instance-level finality oracle (`c.network.EvmIsBlockFinalized`) and
result serialization.  All are unconstrained functions. -/
structure CacheEnv where
  isMethodIgnored : String → Bool
  hasTTL : String → Bool
  isBlockFinalized : Int → Bool × Option Err
  extractFromRequest : JsonRpcRequest → Except Err (String × Int)
  extractFromReqResp : JsonRpcRequest → JsonRpcResponse → Except Err (String × Int)
  extractFromResponse : JsonRpcRequest → Option JsonRpcResponse → Except Err (String × Int)
  marshalResult : Option String → Except Err String
  connGet : Index → String → String → Except Err String
  connSet : String → String → String → Option Err
  connDelete : Index → String → String → Option Err

/-- Trace of external calls an operation performs, in order. -/
inductive Event where
  | resolveFromRequest
  | resolveFromReqResp
  | resolveFromResponse
  | evmBlockNumberCall
  | reqFinalityCheck (n : Int)
  | finalityCheck (n : Int)
  | policyEval
  | keyDerive
  | connGet (idx : Index) (groupKey requestKey : String)
  | connSet (groupKey requestKey value : String)
  | connDelete (idx : Index) (groupKey requestKey : String)
  deriving Repr, DecidableEq

/-- The response envelope `Get` builds on a hit: the request's `jsonrpc`
and `id`, no error, the stored raw result, marked cache-derived
(`WithFromCache(true)`). -/
structure CachedResponse where
  jsonrpc : String
  id : String
  error : Option Err
  result : String
  fromCache : Bool
  deriving Repr, DecidableEq

/-- `generateKeysForJsonRpcRequest`: group key is `networkId:blockRef`
(or `networkId:nil` when the reference is empty), request key is the
content hash; fails only if the hash fails. -/
def generateKeysForJsonRpcRequest (req : NormalizedRequest) (blockRef : String) :
    Except Err (String × String) :=
  match req.cacheHash with
  | .error e => .error e
  | .ok cacheKey =>
    if blockRef ≠ "" then .ok (req.networkId ++ ":" ++ blockRef, cacheKey)
    else .ok (req.networkId ++ ":nil", cacheKey)

/-- `shouldCacheForBlock`: delegates to the cache network's finality oracle. -/
def shouldCacheForBlock (env : CacheEnv) (blockNumber : Int) : Bool × Option Err :=
  env.isBlockFinalized blockNumber

/-- The eligibility policy `shouldCache`, translated branch by branch from
the source, including the literal empty-response exception whose guards are
`err != nil && blkNum > 0` and `err != nil && fin`. -/
def shouldCache (env : CacheEnv) (req : NormalizedRequest)
    (resp : Option NormalizedResponse) (rpcReq : JsonRpcRequest)
    (rpcResp : Option JsonRpcResponse) : (Bool × Option Err) × List Event :=
  if resp.isNone
      || (match resp with | some r => r.isObjectNull | none => false)
      || (match resp with | some r => r.isResultEmptyish | none => false)
      || rpcResp.isNone
      || (match rpcResp with | some rr => rr.result.isNone | none => false)
      || (match rpcResp with | some rr => rr.error.isSome | none => false) then
    match resp.bind (fun r => r.upstream) with
    | none => ((false, none), [])
    | some upsCfg =>
      match upsCfg.evm with
      | none => ((false, none), [])
      | some evmCfg =>
        match evmCfg.syncing with
        | none => ((false, none), [])
        | some syncing =>
          if syncing then ((false, none), [])
          else
            let blkNum := req.evmBlockNumber.1
            let berr := req.evmBlockNumber.2
            if berr.isSome ∧ 0 < blkNum then
              match req.network with
              | none => ((false, none), [Event.evmBlockNumberCall])
              | some ntw =>
                let fin := (ntw blkNum).1
                let ferr := (ntw blkNum).2
                if ferr.isSome ∧ fin then
                  ((fin, none), [Event.evmBlockNumberCall, Event.reqFinalityCheck blkNum])
                else
                  ((false, none), [Event.evmBlockNumberCall, Event.reqFinalityCheck blkNum])
            else ((false, none), [Event.evmBlockNumberCall])
  else
    if rpcReq.method = "eth_getTransactionByHash"
        ∨ rpcReq.method = "eth_getTransactionReceipt"
        ∨ rpcReq.method = "eth_getTransactionByBlockHashAndIndex"
        ∨ rpcReq.method = "eth_getTransactionByBlockNumberAndIndex" then
      match env.extractFromResponse rpcReq rpcResp with
      | .error e => ((false, some e), [Event.resolveFromResponse])
      | .ok (blkRef, blkNum) =>
        if blkRef = "" ∧ blkNum = 0 then ((false, none), [Event.resolveFromResponse])
        else ((true, none), [Event.resolveFromResponse])
    else ((true, none), [])

/-- The read path `Get`, translated gate by gate from the source. -/
def Get (env : CacheEnv) (req : NormalizedRequest) :
    Except Err (Option CachedResponse) × List Event :=
  match req.jsonRpcRequest with
  | .error e => (.error e, [])
  | .ok rpcReq =>
    if env.isMethodIgnored rpcReq.method then (.ok none, [])
    else
      let hasTTL := env.hasTTL rpcReq.method
      match env.extractFromRequest rpcReq with
      | .error e => (.error e, [Event.resolveFromRequest])
      | .ok (blockRef, blockNumber) =>
        if blockRef = "" ∧ blockNumber = 0 ∧ ¬hasTTL then
          (.ok none, [Event.resolveFromRequest])
        else
          if blockNumber ≠ 0 ∧ (shouldCacheForBlock env blockNumber).2 = none
              ∧ (shouldCacheForBlock env blockNumber).1 = false then
            (.ok none, [Event.resolveFromRequest, Event.finalityCheck blockNumber])
          else
            let finEvents : List Event :=
              if blockNumber ≠ 0 then [Event.finalityCheck blockNumber] else []
            match generateKeysForJsonRpcRequest req blockRef with
            | .error e =>
              (.error e, Event.resolveFromRequest :: (finEvents ++ [Event.keyDerive]))
            | .ok (groupKey, requestKey) =>
              let idx := if blockRef ≠ "*" then Index.main else Index.reverse
              let events := Event.resolveFromRequest ::
                (finEvents ++ [Event.keyDerive, Event.connGet idx groupKey requestKey])
              match env.connGet idx groupKey requestKey with
              | .error e => (.error e, events)
              | .ok resultString =>
                if resultString = "\"\"" ∨ resultString = "null"
                    ∨ resultString = "[]" ∨ resultString = "\x7b\x7d" then
                  (.ok none, events)
                else
                  (.ok (some ⟨rpcReq.jsonrpc, rpcReq.id, none, resultString, true⟩),
                   events)

/-- The write path `Set`, translated gate by gate from the source
(the 5-second write timeout is not modelled; the connector's own result is). -/
def Set (env : CacheEnv) (req : NormalizedRequest) (resp : NormalizedResponse) :
    Option Err × List Event :=
  match req.jsonRpcRequest with
  | .error e => (some e, [])
  | .ok rpcReq =>
    match resp.jsonRpcResponse with
    | .error e => (some e, [])
    | .ok rpcResp =>
      if env.isMethodIgnored rpcReq.method then (none, [])
      else
        let scr := shouldCache env req (some resp) rpcReq (some rpcResp)
        let events0 := Event.policyEval :: scr.2
        if scr.1.1 = false ∨ (scr.1.2).isSome then (scr.1.2, events0)
        else
          match env.extractFromReqResp rpcReq rpcResp with
          | .error e => (some e, events0 ++ [Event.resolveFromReqResp])
          | .ok (blockRef, blockNumber) =>
            let events1 := events0 ++ [Event.resolveFromReqResp]
            let hasTTL := env.hasTTL rpcReq.method
            if blockRef = "" ∧ blockNumber = 0 ∧ ¬hasTTL then (none, events1)
            else
              if ¬hasTTL ∧ blockRef = "" ∧ blockNumber = 0 then (none, events1)
              else
                let finEvents : List Event :=
                  if ¬hasTTL ∧ 0 < blockNumber then [Event.finalityCheck blockNumber] else []
                let events2 := events1 ++ finEvents
                if ¬hasTTL ∧ 0 < blockNumber ∧
                    ((shouldCacheForBlock env blockNumber).1 = false
                      ∨ ((shouldCacheForBlock env blockNumber).2).isSome) then
                  ((shouldCacheForBlock env blockNumber).2, events2)
                else
                  match generateKeysForJsonRpcRequest req blockRef with
                  | .error e => (some e, events2 ++ [Event.keyDerive])
                  | .ok (pk, rk) =>
                    match env.marshalResult rpcResp.result with
                    | .error e => (some e, events2 ++ [Event.keyDerive])
                    | .ok value =>
                      (env.connSet pk rk value,
                       events2 ++ [Event.keyDerive, Event.connSet pk rk value])

/-- `DeleteByGroupKey`: delete each group key on the main index with an
empty request key, stopping at the first connector error. -/
def DeleteByGroupKey (env : CacheEnv) : List String → Option Err × List Event
  | [] => (none, [])
  | gk :: rest =>
    match env.connDelete Index.main gk "" with
    | some e => (some e, [Event.connDelete Index.main gk ""])
    | none =>
      let r := DeleteByGroupKey env rest
      (r.1, Event.connDelete Index.main gk "" :: r.2)

/-! Concrete fixtures used by witnesses and counterexamples. -/

/-- A benign environment: nothing ignored, no TTLs, every block finalized,
no block scope resolvable, storage empty, serialization faithful
(a raw message marshals to itself, a nil result to `null`). -/
def baseEnv : CacheEnv where
  isMethodIgnored := fun _ => false
  hasTTL := fun _ => false
  isBlockFinalized := fun _ => (true, none)
  extractFromRequest := fun _ => .ok ("", 0)
  extractFromReqResp := fun _ _ => .ok ("", 0)
  extractFromResponse := fun _ _ => .ok ("", 0)
  marshalResult := fun r => match r with | some s => .ok s | none => .ok "null"
  connGet := fun _ _ _ => .error "record not found"
  connSet := fun _ _ _ => none
  connDelete := fun _ _ _ => none

/-- A well-formed request on network `evm:1` with no resolvable block data. -/
def baseReq : NormalizedRequest where
  networkId := "evm:1"
  jsonRpcRequest := .ok ⟨"2.0", "1", "eth_getBalance"⟩
  cacheHash := .ok "hash1"
  evmBlockNumber := (0, none)
  network := none

/-- An empty-ish response (nil result) from a fully synced upstream
(`Syncing` pointer present and false). -/
def respEmptySynced : NormalizedResponse where
  isObjectNull := false
  isResultEmptyish := true
  jsonRpcResponse := .ok ⟨none, none⟩
  upstream := some ⟨some ⟨some false⟩⟩

/-- Request whose block number resolves SUCCESSFULLY to the positive value 5
and whose network finality oracle SUCCEEDS reporting finalized. -/
def reqResolvedFinalized : NormalizedRequest :=
  { baseReq with
    evmBlockNumber := (5, none)
    network := some (fun _ => (true, none)) }

/-- Request whose block number extraction RETURNS AN ERROR (alongside the
positive value 5) and whose network finality oracle RETURNS AN ERROR
(alongside `true`). -/
def reqResolutionErrored : NormalizedRequest :=
  { baseReq with
    evmBlockNumber := (5, some "blocknum extraction failed")
    network := some (fun _ => (true, some "finality check failed")) }

/-- The parsed request used in the eligibility-policy evaluations. -/
def rpcReqReceipt : JsonRpcRequest := ⟨"2.0", "1", "eth_getTransactionReceipt"⟩

/-- C1: the empty-response exception of `shouldCache` is inverted in the
code.  At an input where the claim's conditions all hold — upstream fully
synced, a positive block number (5) resolved successfully, finality check
succeeding and reporting finalized — the code classifies the response as
INELIGIBLE `(false, nil)`; and at the mirror input where both the
block-number extraction and the finality check RETURN ERRORS, the code
classifies it as ELIGIBLE `(true, nil)`.  The guards read
`err != nil && blkNum > 0` and `err != nil && fin` where the claim (and
spec §4.4) require successful resolution and a successful finality check. -/
theorem c1_inverted_finality_exception :
    (shouldCache baseEnv reqResolvedFinalized (some respEmptySynced)
      rpcReqReceipt (some ⟨none, none⟩)).1 = (false, none) ∧
    (shouldCache baseEnv reqResolutionErrored (some respEmptySynced)
      rpcReqReceipt (some ⟨none, none⟩)).1 = (true, none) := by
  constructor <;> rfl

/-- C10: `DeleteByGroupKey` deletes each group key on the main index with
an empty request key, in order; it returns `nil` after the empty sequence
and whenever every deletion succeeds, and stops at the first connector
error, returning it without attempting the remaining keys. -/
theorem c10_delete_by_group_key (env : CacheEnv) :
    DeleteByGroupKey env [] = (none, []) ∧
    (∀ keys : List String,
      (∀ k ∈ keys, env.connDelete Index.main k "" = none) →
      DeleteByGroupKey env keys =
        (none, keys.map (fun k => Event.connDelete Index.main k ""))) ∧
    (∀ ks1 : List String, ∀ k : String, ∀ ks2 : List String, ∀ e : Err,
      (∀ k' ∈ ks1, env.connDelete Index.main k' "" = none) →
      env.connDelete Index.main k "" = some e →
      DeleteByGroupKey env (ks1 ++ k :: ks2) =
        (some e, ks1.map (fun k' => Event.connDelete Index.main k' "") ++
          [Event.connDelete Index.main k ""])) := by
  refine ⟨rfl, ?_, ?_⟩
  · intro keys hall
    induction keys with
    | nil => rfl
    | cons a as ih =>
      have ha : env.connDelete Index.main a "" = none :=
        hall a (List.mem_cons_self a as)
      have ih' := ih (fun k hk => hall k (List.mem_cons_of_mem a hk))
      simp [DeleteByGroupKey, ha, ih']
  · intro ks1 k ks2 e hall hk
    induction ks1 with
    | nil => simp [DeleteByGroupKey, hk]
    | cons a as ih =>
      have ha : env.connDelete Index.main a "" = none :=
        hall a (List.mem_cons_self a as)
      have ih' := ih (fun k' hk' => hall k' (List.mem_cons_of_mem a hk'))
      simp [DeleteByGroupKey, ha, ih']

/-- Every external call recorded by the eligibility policy is a resolver or
request-level finality call: the policy itself never touches the connector. -/
theorem shouldCache_events_shape (env : CacheEnv) (req : NormalizedRequest)
    (resp : Option NormalizedResponse) (rpcReq : JsonRpcRequest)
    (rpcResp : Option JsonRpcResponse) :
    ∀ e ∈ (shouldCache env req resp rpcReq rpcResp).2,
      e = Event.evmBlockNumberCall ∨ (∃ n, e = Event.reqFinalityCheck n) ∨
        e = Event.resolveFromResponse := by
  intro e he
  unfold shouldCache at he
  repeat' split at he
  all_goals aesop

/-- The write path never performs an indexed connector lookup or deletion:
every connector interaction in a `Set` trace is a plain `connSet` write. -/
theorem Set_events_no_lookup (env : CacheEnv) (req : NormalizedRequest)
    (resp : NormalizedResponse) :
    ∀ e ∈ (Set env req resp).2,
      (∀ idx g k, e ≠ Event.connGet idx g k) ∧
      (∀ idx g k, e ≠ Event.connDelete idx g k) := by
  have hshape := fun rq rr =>
    shouldCache_events_shape env req (some resp) rq (some rr)
  intro e he
  simp only [Set] at he
  repeat' split at he
  all_goals
    simp only [List.mem_cons, List.mem_append, List.mem_singleton,
      List.not_mem_nil, or_false, false_or] at he
  all_goals
    refine ⟨fun idx g k hc => ?_, fun idx g k hc => ?_⟩ <;> subst hc <;> simp_all
  all_goals
    rcases hshape _ _ _ he with h | ⟨n, h⟩ | h <;> simp_all

/-- C8: on every `Get` that reaches the storage lookup, the reverse index
is used if and only if the resolved block reference is the wildcard `*`
(the main index otherwise); and a `Set` trace never contains an indexed
connector lookup or deletion — any storage interaction on the write path is
the connector's plain `Set`. -/
theorem c8_index_selection (env : CacheEnv) (req : NormalizedRequest)
    (rpcReq : JsonRpcRequest) (blockRef : String) (blockNumber : Int)
    (hparse : req.jsonRpcRequest = .ok rpcReq)
    (hres : env.extractFromRequest rpcReq = .ok (blockRef, blockNumber)) :
    (∀ idx g k, Event.connGet idx g k ∈ (Get env req).2 →
      (idx = Index.reverse ↔ blockRef = "*")) ∧
    (∀ resp : NormalizedResponse, ∀ e ∈ (Set env req resp).2,
      (∀ idx g k, e ≠ Event.connGet idx g k) ∧
      (∀ idx g k, e ≠ Event.connDelete idx g k)) := by
  constructor
  · intro idx g k hmem
    simp only [Get, hparse, hres] at hmem
    repeat' split at hmem
    all_goals simp_all
  · intro resp e he
    exact Set_events_no_lookup env req resp e he

/-- A request resolving (pre-call) to the wildcard block reference with a
cached entry stored under the reverse index. -/
def reqWildcard : NormalizedRequest :=
  { baseReq with
    jsonRpcRequest := .ok ⟨"2.0", "7", "eth_getTransactionByHash"⟩ }

/-- Environment resolving requests to the wildcard reference `*`. -/
def envWildcard : CacheEnv :=
  { baseEnv with
    extractFromRequest := fun _ => .ok ("*", 0)
    connGet := fun _ _ _ => .ok "0xcafe" }

/-- Witness for C8 at a concrete input: a request resolving to `*` performs
its lookup, and every lookup event in the trace carries the reverse index. -/
theorem c8_index_selection_witness :
    Event.connGet Index.reverse "evm:1:*" "hash1" ∈ (Get envWildcard reqWildcard).2 ∧
    (Index.reverse = Index.reverse ↔ ("*" : String) = "*") := by
  refine ⟨by decide, ?_⟩
  exact (c8_index_selection envWildcard reqWildcard ⟨"2.0", "7", "eth_getTransactionByHash"⟩
    "*" 0 rfl rfl).1 Index.reverse "evm:1:*" "hash1" (by decide)

/-- C9: if a `Get` that reaches the storage lookup receives, without
connector error, a stored string equal to one of the four empty JSON
sentinels (the two-character string `""`, `null`, `[]`, `{}`), it returns
no entry and no error — a miss, with no response envelope built. -/
theorem c9_empty_sentinels (env : CacheEnv) (req : NormalizedRequest)
    (rpcReq : JsonRpcRequest) (blockRef : String) (blockNumber : Int)
    (h s : String)
    (hparse : req.jsonRpcRequest = .ok rpcReq)
    (hign : env.isMethodIgnored rpcReq.method = false)
    (hres : env.extractFromRequest rpcReq = .ok (blockRef, blockNumber))
    (hgate : ¬(blockRef = "" ∧ blockNumber = 0 ∧ env.hasTTL rpcReq.method = false))
    (hfin : ¬(blockNumber ≠ 0 ∧ (shouldCacheForBlock env blockNumber).2 = none
      ∧ (shouldCacheForBlock env blockNumber).1 = false))
    (hhash : req.cacheHash = .ok h)
    (hconn : env.connGet (if blockRef ≠ "*" then Index.main else Index.reverse)
      (if blockRef ≠ "" then req.networkId ++ ":" ++ blockRef else req.networkId ++ ":nil")
      h = .ok s)
    (hs : s = "\"\"" ∨ s = "null" ∨ s = "[]" ∨ s = "\x7b\x7d") :
    (Get env req).1 = .ok none := by
  simp only [Get, hparse, hign, hres, generateKeysForJsonRpcRequest, hhash,
    Bool.false_eq_true, if_false]
  rw [if_neg (by simpa using hgate), if_neg hfin]
  by_cases href : blockRef = ""
  · simp only [href, ne_eq, not_true_eq_false, if_false] at hconn ⊢
    simp only [show ¬(("" : String) = "*") from by decide, not_false_eq_true,
      if_true] at hconn ⊢
    simp [hconn, hs]
  · simp only [ne_eq, href, not_false_eq_true, if_true] at hconn ⊢
    by_cases hw : blockRef = "*"
    · simp only [hw, not_true_eq_false, if_false] at hconn ⊢
      simp [hconn, hs]
    · simp only [hw, not_false_eq_true, if_true] at hconn ⊢
      simp [hconn, hs]

/-- Environment storing the sentinel `[]` under the key of a block-100
request. -/
def envSentinel : CacheEnv :=
  { baseEnv with
    extractFromRequest := fun _ => .ok ("0xblock100", 100)
    connGet := fun _ _ _ => .ok "[]" }

/-- Witness for C9 at a concrete input: a stored `[]` is answered with a
miss, not a hit. -/
theorem c9_empty_sentinels_witness :
    (Get envSentinel baseReq).1 = .ok none :=
  c9_empty_sentinels envSentinel baseReq ⟨"2.0", "1", "eth_getBalance"⟩
    "0xblock100" 100 "hash1" "[]" rfl rfl rfl (by decide) (by decide) rfl rfl
    (by decide)

/-- C2 (amended): on the read path, for a request resolving to a nonzero
block number, the finality oracle is always queried; if it reports the
block not finalized WITHOUT error, `Get` returns `(nil, nil)` and never
queries the connector; but if the oracle itself returns an error, the
error is swallowed and `Get` PROCEEDS to the connector lookup (the error
is treated as if the block were finalized, not as "not finalized"). -/
theorem c2_get_finality_gate (env : CacheEnv) (req : NormalizedRequest)
    (rpcReq : JsonRpcRequest) (blockRef : String) (blockNumber : Int)
    (hparse : req.jsonRpcRequest = .ok rpcReq)
    (hign : env.isMethodIgnored rpcReq.method = false)
    (hTTL : env.hasTTL rpcReq.method = false)
    (hres : env.extractFromRequest rpcReq = .ok (blockRef, blockNumber))
    (hnz : blockNumber ≠ 0) :
    Event.finalityCheck blockNumber ∈ (Get env req).2 ∧
    (shouldCacheForBlock env blockNumber = (false, none) →
      (Get env req).1 = .ok none ∧
      ∀ idx g k, Event.connGet idx g k ∉ (Get env req).2) ∧
    (∀ s : Bool, ∀ e hh, shouldCacheForBlock env blockNumber = (s, some e) →
      req.cacheHash = .ok hh →
      Event.connGet (if blockRef ≠ "*" then Index.main else Index.reverse)
        (if blockRef ≠ "" then req.networkId ++ ":" ++ blockRef
          else req.networkId ++ ":nil") hh ∈ (Get env req).2) := by
  refine ⟨?_, ?_, ?_⟩
  · simp only [Get, hparse, hign, hres, Bool.false_eq_true, if_false]
    rw [if_neg (fun hcon => hnz hcon.2.1)]
    repeat' split
    all_goals simp [hnz]
  · intro hor
    simp only [Get, hparse, hign, hres, Bool.false_eq_true, if_false]
    rw [if_neg (fun hcon => hnz hcon.2.1),
      if_pos ⟨hnz, by rw [hor], by rw [hor]⟩]
    simp
  · intro s e hh hor hhash
    simp only [Get, hparse, hign, hres, generateKeysForJsonRpcRequest, hhash,
      Bool.false_eq_true, if_false]
    rw [if_neg (fun hcon => hnz hcon.2.1),
      if_neg (fun hcon => Option.some_ne_none e (by rw [hor] at hcon; exact hcon.2.1))]
    by_cases href : blockRef = ""
    · simp only [href, ne_eq, not_true_eq_false, if_false,
        show ¬(("" : String) = "*") from by decide, not_false_eq_true, if_true]
      repeat' split
      all_goals simp [hnz]
    · simp only [ne_eq, href, not_false_eq_true, if_true]
      by_cases hw : blockRef = "*"
      · simp only [hw, not_true_eq_false, if_false]
        repeat' split
        all_goals simp [hnz]
      · simp only [hw, not_false_eq_true, if_true]
        repeat' split
        all_goals simp [hnz]

/-- Environment where block 100 is reported not finalized, without error. -/
def envNotFinalized : CacheEnv :=
  { baseEnv with
    extractFromRequest := fun _ => .ok ("0xb100", 100)
    isBlockFinalized := fun _ => (false, none) }

/-- Witness for C2 at a concrete input: with the oracle reporting block 100
not finalized without error, the oracle is queried and `Get` misses without
any connector lookup. -/
theorem c2_get_finality_gate_witness :
    Event.finalityCheck 100 ∈ (Get envNotFinalized baseReq).2 ∧
    (Get envNotFinalized baseReq).1 = .ok none := by
  have h := c2_get_finality_gate envNotFinalized baseReq
    ⟨"2.0", "1", "eth_getBalance"⟩ "0xb100" 100 rfl rfl rfl rfl (by decide)
  exact ⟨h.1, (h.2.1 rfl).1⟩

/-- Environment where the finality oracle fails for every block and the
connector holds a value for the derived key. -/
def envOracleError : CacheEnv :=
  { baseEnv with
    extractFromRequest := fun _ => .ok ("0xb100", 100)
    isBlockFinalized := fun _ => (false, some "oracle down")
    connGet := fun _ _ _ => .ok "0xbeef" }

/-- Counterexample to C2 as stated: when the finality oracle itself errors,
`Get` does NOT return nothing — it queries the connector and serves the
cached value (the oracle error is treated as finalized, not as
"not finalized"). -/
theorem c2_counterexample :
    (Get envOracleError baseReq).1 =
      .ok (some ⟨"2.0", "1", none, "0xbeef", true⟩) ∧
    Event.connGet Index.main "evm:1:0xb100" "hash1" ∈ (Get envOracleError baseReq).2 :=
  ⟨rfl, by decide⟩

/-- C3: on the write path, for an eligible request with no TTL override
whose post-call resolution yields a positive block number, the finality
oracle is consulted before writing; if it errors or reports the block not
finalized, the write is aborted — `Connector.Set` is never called — and
the oracle's error (nil if it merely reported not-finalized) is returned. -/
theorem c3_set_finality_abort (env : CacheEnv) (req : NormalizedRequest)
    (resp : NormalizedResponse) (rpcReq : JsonRpcRequest) (rpcResp : JsonRpcResponse)
    (blockRef : String) (blockNumber : Int)
    (hparse : req.jsonRpcRequest = .ok rpcReq)
    (hrparse : resp.jsonRpcResponse = .ok rpcResp)
    (hign : env.isMethodIgnored rpcReq.method = false)
    (hsc : (shouldCache env req (some resp) rpcReq (some rpcResp)).1 = (true, none))
    (hres : env.extractFromReqResp rpcReq rpcResp = .ok (blockRef, blockNumber))
    (hTTL : env.hasTTL rpcReq.method = false)
    (hpos : 0 < blockNumber)
    (habort : (shouldCacheForBlock env blockNumber).1 = false
      ∨ ((shouldCacheForBlock env blockNumber).2).isSome) :
    (Set env req resp).1 = (shouldCacheForBlock env blockNumber).2 ∧
    Event.finalityCheck blockNumber ∈ (Set env req resp).2 ∧
    (∀ g k v, Event.connSet g k v ∉ (Set env req resp).2) := by
  have hne : blockNumber ≠ 0 := by omega
  simp only [Set, hparse, hrparse, hign, Bool.false_eq_true, if_false, hres]
  rw [if_neg (by rw [hsc]; simp)]
  rw [if_neg (fun hcon => hne hcon.2.1)]
  rw [if_neg (fun hcon => hne hcon.2.2)]
  rw [if_pos (show ¬(env.hasTTL rpcReq.method = true) ∧ 0 < blockNumber from
    ⟨by simp [hTTL], hpos⟩)]
  rw [if_pos ⟨by simp [hTTL], hpos, habort⟩]
  refine ⟨rfl, by simp, ?_⟩
  intro g k v hmem
  simp only [List.mem_cons, List.mem_append, List.mem_singleton,
    List.not_mem_nil, or_false] at hmem
  rcases hmem with ((h | h) | h) | h
  · simp at h
  · rcases shouldCache_events_shape env req (some resp) rpcReq (some rpcResp) _ h with
      h2 | ⟨n, h2⟩ | h2 <;> simp at h2
  · simp at h
  · simp at h

/-- Environment resolving (post-call) to block 100, reported not finalized
without error. -/
def envUnfinalizedWrite : CacheEnv :=
  { baseEnv with
    extractFromReqResp := fun _ _ => .ok ("0xb100", 100)
    isBlockFinalized := fun _ => (false, none) }

/-- A well-formed non-empty response carrying result `0xdata`. -/
def respGood : NormalizedResponse where
  isObjectNull := false
  isResultEmptyish := false
  jsonRpcResponse := .ok ⟨some "0xdata", none⟩
  upstream := none

/-- Witness for C3 at a concrete input: an eligible response at an
unfinalized block is not written and `Set` returns nil (the oracle reported
no error), after consulting the oracle. -/
theorem c3_set_finality_abort_witness :
    (Set envUnfinalizedWrite baseReq respGood).1 = none ∧
    Event.finalityCheck 100 ∈ (Set envUnfinalizedWrite baseReq respGood).2 := by
  have h := c3_set_finality_abort envUnfinalizedWrite baseReq respGood
    ⟨"2.0", "1", "eth_getBalance"⟩ ⟨some "0xdata", none⟩ "0xb100" 100
    rfl rfl rfl rfl rfl rfl (by decide) (Or.inl rfl)
  exact ⟨h.1.trans rfl, h.2.1⟩

/-- C5 (amended): for the four transaction-lookup methods, PROVIDED the
response actually reaches the method classification (non-null,
non-emptyish, a result present, no RPC error): if the post-call
block-reference extraction yields neither a reference nor a number, the
policy returns ineligible without error and `Set` no-ops successfully; if
the extraction itself errors, that error becomes `Set`'s result and
nothing is written.  (For empty-ish responses the classification is never
reached: the finalized-empty exception branch may even report such a
response eligible.) -/
theorem c5_tx_method_gate (env : CacheEnv) (req : NormalizedRequest)
    (resp : NormalizedResponse) (rpcReq : JsonRpcRequest)
    (rpcResp : JsonRpcResponse) (r : String)
    (hparse : req.jsonRpcRequest = .ok rpcReq)
    (hrparse : resp.jsonRpcResponse = .ok rpcResp)
    (hign : env.isMethodIgnored rpcReq.method = false)
    (hnull : resp.isObjectNull = false)
    (hempty : resp.isResultEmptyish = false)
    (hresult : rpcResp.result = some r)
    (herr : rpcResp.error = none)
    (hmethod : rpcReq.method = "eth_getTransactionByHash"
      ∨ rpcReq.method = "eth_getTransactionReceipt"
      ∨ rpcReq.method = "eth_getTransactionByBlockHashAndIndex"
      ∨ rpcReq.method = "eth_getTransactionByBlockNumberAndIndex") :
    (env.extractFromResponse rpcReq (some rpcResp) = .ok ("", 0) →
      (shouldCache env req (some resp) rpcReq (some rpcResp)).1 = (false, none) ∧
      Set env req resp = (none, [Event.policyEval, Event.resolveFromResponse])) ∧
    (∀ e, env.extractFromResponse rpcReq (some rpcResp) = .error e →
      (shouldCache env req (some resp) rpcReq (some rpcResp)).1 = (false, some e) ∧
      Set env req resp = (some e, [Event.policyEval, Event.resolveFromResponse])) := by
  constructor
  · intro hex
    have hsc : shouldCache env req (some resp) rpcReq (some rpcResp) =
        ((false, none), [Event.resolveFromResponse]) := by
      rcases hmethod with hm | hm | hm | hm <;>
        simp [shouldCache, hnull, hempty, hresult, herr, hex, hm]
    refine ⟨by rw [hsc], ?_⟩
    simp [Set, hparse, hrparse, hign, hsc]
  · intro e hex
    have hsc : shouldCache env req (some resp) rpcReq (some rpcResp) =
        ((false, some e), [Event.resolveFromResponse]) := by
      rcases hmethod with hm | hm | hm | hm <;>
        simp [shouldCache, hnull, hempty, hresult, herr, hex, hm]
    refine ⟨by rw [hsc], ?_⟩
    simp [Set, hparse, hrparse, hign, hsc]

/-- Request for an empty receipt whose request-level block extraction
errors alongside a positive number, on a network whose finality check
errors alongside `true` — the values that fire the literal exception. -/
def reqPendingReceipt : NormalizedRequest :=
  { baseReq with
    jsonRpcRequest := .ok rpcReqReceipt
    evmBlockNumber := (7, some "block number extraction failed")
    network := some (fun _ => (true, some "finality check failed")) }

/-- Environment that caches every method by TTL and extracts no block data
from any response. -/
def envTTLAll : CacheEnv :=
  { baseEnv with hasTTL := fun _ => true }

/-- Counterexample to C5 as stated: an `eth_getTransactionReceipt` request
whose response is empty and yields NO block reference/number from the
request+response pair is nevertheless classified ELIGIBLE `(true, nil)` by
the policy (through the literal finalized-empty exception), and `Set`
proceeds to cache the serialized nil result (`null`) rather than no-op. -/
theorem c5_counterexample :
    envTTLAll.extractFromResponse rpcReqReceipt (some ⟨none, none⟩) = .ok ("", 0) ∧
    (shouldCache envTTLAll reqPendingReceipt (some respEmptySynced)
      rpcReqReceipt (some ⟨none, none⟩)).1 = (true, none) ∧
    (Set envTTLAll reqPendingReceipt respEmptySynced).1 = none ∧
    Event.connSet "evm:1:nil" "hash1" "null" ∈
      (Set envTTLAll reqPendingReceipt respEmptySynced).2 :=
  ⟨rfl, rfl, rfl, by decide⟩

/-- Witness for C5 at a concrete input: a non-empty receipt response from
which no block data can be extracted is ineligible without error, and
`Set` returns nil having written nothing. -/
theorem c5_tx_method_gate_witness :
    (shouldCache baseEnv
        { baseReq with jsonRpcRequest := .ok rpcReqReceipt }
        (some respGood) rpcReqReceipt (some ⟨some "0xdata", none⟩)).1 =
      (false, none) ∧
    Set baseEnv { baseReq with jsonRpcRequest := .ok rpcReqReceipt } respGood =
      (none, [Event.policyEval, Event.resolveFromResponse]) := by
  have h := (c5_tx_method_gate baseEnv
    { baseReq with jsonRpcRequest := .ok rpcReqReceipt }
    respGood rpcReqReceipt ⟨some "0xdata", none⟩ "0xdata"
    rfl rfl rfl rfl rfl rfl rfl (Or.inr (Or.inl rfl))).1 rfl
  exact h

/-- C6 (amended): for a request that parses and whose method is ignored,
`Get` returns `(nil, nil)` with an empty trace, and `Set` returns nil with
an empty trace PROVIDED the response also parses; if the response fails to
parse, `Set` returns that parse error (the response is parsed before the
ignore gate) — in every case no resolver, policy or connector call occurs. -/
theorem c6_ignored_method (env : CacheEnv) (req : NormalizedRequest)
    (rpcReq : JsonRpcRequest)
    (hparse : req.jsonRpcRequest = .ok rpcReq)
    (hign : env.isMethodIgnored rpcReq.method = true) :
    Get env req = (.ok none, []) ∧
    (∀ resp : NormalizedResponse, ∀ rpcResp : JsonRpcResponse,
      resp.jsonRpcResponse = .ok rpcResp → Set env req resp = (none, [])) ∧
    (∀ resp : NormalizedResponse, ∀ e : Err,
      resp.jsonRpcResponse = .error e → Set env req resp = (some e, [])) := by
  refine ⟨?_, ?_, ?_⟩
  · simp [Get, hparse, hign]
  · intro resp rpcResp hrparse
    simp [Set, hparse, hrparse, hign]
  · intro resp e hrparse
    simp [Set, hparse, hrparse]

/-- Environment that ignores every method. -/
def envIgnoreAll : CacheEnv :=
  { baseEnv with isMethodIgnored := fun _ => true }

/-- Witness for C6 at a concrete input: on an ignored method `Get` misses
and `Set` no-ops, both with empty traces. -/
theorem c6_ignored_method_witness :
    Get envIgnoreAll baseReq = (.ok none, []) ∧
    Set envIgnoreAll baseReq respGood = (none, []) := by
  have h := c6_ignored_method envIgnoreAll baseReq
    ⟨"2.0", "1", "eth_getBalance"⟩ rfl rfl
  exact ⟨h.1, h.2.1 respGood ⟨some "0xdata", none⟩ rfl⟩

/-- A response whose JSON-RPC payload fails to parse. -/
def respUnparseable : NormalizedResponse where
  isObjectNull := false
  isResultEmptyish := false
  jsonRpcResponse := .error "malformed response"
  upstream := none

/-- Counterexample to C6 as stated: on an ignored, well-parsing request,
`Set` does NOT return nil when the response fails to parse — the response
is parsed before the ignore gate and the parse error is returned. -/
theorem c6_counterexample :
    envIgnoreAll.isMethodIgnored "eth_getBalance" = true ∧
    (Set envIgnoreAll baseReq respUnparseable).1 = some "malformed response" :=
  ⟨rfl, rfl⟩

/-- C7 (amended): for a request resolving to an empty block reference and
block number zero on both paths, with the method not ignored and the
eligibility policy returning no error: without a TTL override, `Get`
returns `(nil, nil)` straight after resolution and `Set` returns nil with
no write; with a TTL override the gate does not apply and both paths
proceed to key derivation — for `Set` provided the policy reported
eligible. -/
theorem c7_no_block_gate (env : CacheEnv) (req : NormalizedRequest)
    (resp : NormalizedResponse) (rpcReq : JsonRpcRequest) (rpcResp : JsonRpcResponse)
    (hparse : req.jsonRpcRequest = .ok rpcReq)
    (hrparse : resp.jsonRpcResponse = .ok rpcResp)
    (hign : env.isMethodIgnored rpcReq.method = false)
    (hresG : env.extractFromRequest rpcReq = .ok ("", 0))
    (hresS : env.extractFromReqResp rpcReq rpcResp = .ok ("", 0))
    (hscerr : (shouldCache env req (some resp) rpcReq (some rpcResp)).1.2 = none) :
    (env.hasTTL rpcReq.method = false →
      Get env req = (.ok none, [Event.resolveFromRequest]) ∧
      (Set env req resp).1 = none ∧
      (∀ g k v, Event.connSet g k v ∉ (Set env req resp).2)) ∧
    (env.hasTTL rpcReq.method = true →
      Event.keyDerive ∈ (Get env req).2 ∧
      ((shouldCache env req (some resp) rpcReq (some rpcResp)).1.1 = true →
        Event.keyDerive ∈ (Set env req resp).2)) := by
  constructor
  · intro hTTL
    refine ⟨?_, ?_⟩
    · simp [Get, hparse, hign, hresG, hTTL]
    · by_cases hv : (shouldCache env req (some resp) rpcReq (some rpcResp)).1.1 = true
      · simp only [Set, hparse, hrparse, hign, Bool.false_eq_true, if_false, hresS]
        rw [if_neg (by simp [hv, hscerr])]
        rw [if_pos (by simp [hTTL])]
        refine ⟨rfl, ?_⟩
        intro g k v hmem
        simp only [List.mem_cons, List.mem_append, List.mem_singleton,
          List.not_mem_nil, or_false] at hmem
        rcases hmem with (h | h) | h
        · simp at h
        · rcases shouldCache_events_shape env req (some resp) rpcReq (some rpcResp) _ h with
            h2 | ⟨n, h2⟩ | h2 <;> simp at h2
        · simp at h
      · simp only [Set, hparse, hrparse, hign, Bool.false_eq_true, if_false]
        rw [if_pos (Or.inl (by simpa using hv))]
        refine ⟨hscerr, ?_⟩
        intro g k v hmem
        simp only [List.mem_cons, List.not_mem_nil, or_false] at hmem
        rcases hmem with h | h
        · simp at h
        · rcases shouldCache_events_shape env req (some resp) rpcReq (some rpcResp) _ h with
            h2 | ⟨n, h2⟩ | h2 <;> simp at h2
  · intro hTTL
    constructor
    · simp only [Get, hparse, hign, hresG, Bool.false_eq_true, if_false]
      rw [if_neg (by simp [hTTL])]
      rw [if_neg (by simp)]
      repeat' split
      all_goals simp
    · intro hv
      simp only [Set, hparse, hrparse, hign, Bool.false_eq_true, if_false, hresS]
      rw [if_neg (by simp [hv, hscerr])]
      rw [if_neg (by simp [hTTL])]
      rw [if_neg (by simp [hTTL])]
      rw [if_neg (by simp [hTTL])]
      repeat' split
      all_goals simp

/-- Witness for C7 at a concrete input: with no TTL override and no block
data, `Get` misses right after resolution and `Set` no-ops. -/
theorem c7_no_block_gate_witness :
    Get baseEnv baseReq = (.ok none, [Event.resolveFromRequest]) ∧
    (Set baseEnv baseReq respGood).1 = none := by
  have h := (c7_no_block_gate baseEnv baseReq respGood
    ⟨"2.0", "1", "eth_getBalance"⟩ ⟨some "0xdata", none⟩
    rfl rfl rfl rfl rfl rfl).1 rfl
  exact ⟨h.1, h.2.1⟩

/-- Environment with a TTL override on every method, ignoring every method. -/
def envIgnoredWithTTL : CacheEnv :=
  { baseEnv with
    isMethodIgnored := fun _ => true
    hasTTL := fun _ => true }

/-- Counterexample to C7 as stated: a request with a TTL override resolving
to no block data does NOT proceed to key derivation when its method is
ignored — `Get` returns immediately with an empty trace (ignore takes
precedence over TTL). -/
theorem c7_counterexample :
    envIgnoredWithTTL.hasTTL "eth_getBalance" = true ∧
    envIgnoredWithTTL.extractFromRequest ⟨"2.0", "1", "eth_getBalance"⟩ = .ok ("", 0) ∧
    Event.keyDerive ∉ (Get envIgnoredWithTTL baseReq).2 :=
  ⟨rfl, rfl, by decide⟩

/-- C4 (amended): round-trip.  If `Set` actually performs the connector
write for request R (eligible, block data resolved, write gates passed,
connector write succeeds), the connector faithfully returns the written
value for the derived key, the read path resolves R to the SAME block
reference, the finality oracle does not errorlessly report the read-side
block number unfinalized, and the written payload is not one of the four
empty sentinels, then `Get` on R returns a response whose result equals the
written payload, whose id/jsonrpc equal R's, with no error, marked
cache-derived. -/
theorem c4_round_trip (env : CacheEnv) (req : NormalizedRequest)
    (resp : NormalizedResponse) (rpcReq : JsonRpcRequest) (rpcResp : JsonRpcResponse)
    (blockRef : String) (nB nG : Int) (h v : String)
    (hparse : req.jsonRpcRequest = .ok rpcReq)
    (hrparse : resp.jsonRpcResponse = .ok rpcResp)
    (hign : env.isMethodIgnored rpcReq.method = false)
    (hsc : (shouldCache env req (some resp) rpcReq (some rpcResp)).1 = (true, none))
    (hresS : env.extractFromReqResp rpcReq rpcResp = .ok (blockRef, nB))
    (hresG : env.extractFromRequest rpcReq = .ok (blockRef, nG))
    (hhash : req.cacheHash = .ok h)
    (hmarsh : env.marshalResult rpcResp.result = .ok v)
    (hnotsent : ¬(v = "\"\"" ∨ v = "null" ∨ v = "[]" ∨ v = "\x7b\x7d"))
    (hgateS : ¬(blockRef = "" ∧ nB = 0 ∧ env.hasTTL rpcReq.method = false))
    (hfinS : env.hasTTL rpcReq.method = true ∨ nB ≤ 0 ∨
      shouldCacheForBlock env nB = (true, none))
    (hgateG : ¬(blockRef = "" ∧ nG = 0 ∧ env.hasTTL rpcReq.method = false))
    (hfinG : ¬(nG ≠ 0 ∧ (shouldCacheForBlock env nG).2 = none
      ∧ (shouldCacheForBlock env nG).1 = false))
    (hset : env.connSet
      (if blockRef ≠ "" then req.networkId ++ ":" ++ blockRef
        else req.networkId ++ ":nil") h v = none)
    (hget : env.connGet (if blockRef ≠ "*" then Index.main else Index.reverse)
      (if blockRef ≠ "" then req.networkId ++ ":" ++ blockRef
        else req.networkId ++ ":nil") h = .ok v) :
    (Set env req resp).1 = none ∧
    Event.connSet
      (if blockRef ≠ "" then req.networkId ++ ":" ++ blockRef
        else req.networkId ++ ":nil") h v ∈ (Set env req resp).2 ∧
    (Get env req).1 = .ok (some ⟨rpcReq.jsonrpc, rpcReq.id, none, v, true⟩) := by
  have hsetResult : Set env req resp =
      ((env.connSet
          (if blockRef ≠ "" then req.networkId ++ ":" ++ blockRef
            else req.networkId ++ ":nil") h v),
        (Event.policyEval :: (shouldCache env req (some resp) rpcReq (some rpcResp)).2
            ++ [Event.resolveFromReqResp]
            ++ (if ¬(env.hasTTL rpcReq.method = true) ∧ 0 < nB
                then [Event.finalityCheck nB] else []))
          ++ [Event.keyDerive,
              Event.connSet
                (if blockRef ≠ "" then req.networkId ++ ":" ++ blockRef
                  else req.networkId ++ ":nil") h v]) := by
    simp only [Set, hparse, hrparse, hign, Bool.false_eq_true, if_false, hresS,
      generateKeysForJsonRpcRequest, hhash, hmarsh]
    rw [if_neg (by rw [hsc]; simp)]
    rw [if_neg (by simpa [Bool.not_eq_true, and_assoc] using hgateS)]
    rw [if_neg (fun hcon => hgateS ⟨hcon.2.1, hcon.2.2, by simpa using hcon.1⟩)]
    rw [if_neg (fun hcon => ?abort)]
    case abort =>
      rcases hfinS with hf | hf | hf
      · exact absurd hf (by simpa using hcon.1)
      · omega
      · rw [hf] at hcon
        rcases hcon.2.2 with hx | hx <;> simp at hx
    by_cases href : blockRef = ""
    · simp [href]
    · simp [href]
  refine ⟨?_, ?_, ?_⟩
  · rw [hsetResult, hset]
  · rw [hsetResult]; simp
  · simp only [Get, hparse, hign, hresG, generateKeysForJsonRpcRequest, hhash,
      Bool.false_eq_true, if_false]
    rw [if_neg (by simpa [Bool.not_eq_true, and_assoc] using hgateG)]
    rw [if_neg hfinG]
    by_cases href : blockRef = ""
    · simp only [href, ne_eq, not_true_eq_false, if_false,
        show ¬(("" : String) = "*") from by decide, not_false_eq_true, if_true] at hget ⊢
      simp [hget, hnotsent]
    · simp only [ne_eq, href, not_false_eq_true, if_true] at hget ⊢
      by_cases hw : blockRef = "*"
      · simp only [hw, not_true_eq_false, if_false] at hget ⊢
        simp [hget, hnotsent]
      · simp only [hw, not_false_eq_true, if_true] at hget ⊢
        simp [hget, hnotsent]

/-- Faithful storage for the round-trip witness: block 100 resolves on both
paths, and the connector returns exactly the value written under the
derived key. -/
def envRoundTrip : CacheEnv :=
  { baseEnv with
    extractFromRequest := fun _ => .ok ("0xb100", 100)
    extractFromReqResp := fun _ _ => .ok ("0xb100", 100)
    connGet := fun _ g k =>
      if g = "evm:1:0xb100" ∧ k = "hash1" then .ok "0xdata" else .error "not found" }

/-- Witness for C4 at a concrete input: `Set` writes `0xdata` under the
block-100 key and `Get` serves it back as a cache-derived envelope with
the request's id and jsonrpc. -/
theorem c4_round_trip_witness :
    (Set envRoundTrip baseReq respGood).1 = none ∧
    (Get envRoundTrip baseReq).1 =
      .ok (some ⟨"2.0", "1", none, "0xdata", true⟩) := by
  have h := c4_round_trip envRoundTrip baseReq respGood
    ⟨"2.0", "1", "eth_getBalance"⟩ ⟨some "0xdata", none⟩ "0xb100" 100 100
    "hash1" "0xdata" rfl rfl rfl rfl rfl rfl rfl rfl (by decide) (by decide)
    (Or.inr (Or.inr rfl)) (by decide) (by decide) rfl rfl
  exact ⟨h.1, h.2.2⟩

/-- Environment with a TTL override, block 100 unfinalized (no oracle
error), and faithful storage — the setting of the C4 counterexample. -/
def envTTLUnfinalized : CacheEnv :=
  { baseEnv with
    hasTTL := fun _ => true
    extractFromRequest := fun _ => .ok ("0xb100", 100)
    extractFromReqResp := fun _ _ => .ok ("0xb100", 100)
    isBlockFinalized := fun _ => (false, none)
    connGet := fun _ g k =>
      if g = "evm:1:0xb100" ∧ k = "hash1" then .ok "0xdata" else .error "not found" }

/-- Counterexample to C4 as stated: under a TTL override `Set` succeeds and
physically writes the payload at block 100, the connector faithfully
returns it, the read path resolves the same block reference — yet `Get`
returns no response, because the read path's unconditional finality check
sees block 100 unfinalized. -/
theorem c4_counterexample :
    (Set envTTLUnfinalized baseReq respGood).1 = none ∧
    Event.connSet "evm:1:0xb100" "hash1" "0xdata" ∈
      (Set envTTLUnfinalized baseReq respGood).2 ∧
    (Get envTTLUnfinalized baseReq).1 = .ok none :=
  ⟨rfl, by decide, rfl⟩

/-- Environment whose connector fails deletions of group key `b`. -/
def envDeleteFailB : CacheEnv :=
  { baseEnv with
    connDelete := fun _ gk _ => if gk = "b" then some "delete failed" else none }

/-- Witness for C10 at a concrete input: with keys `[a, b, c]` and the
connector failing on `b`, the loop deletes `a`, fails on `b`, returns that
error and never touches `c`. -/
theorem c10_delete_by_group_key_witness :
    DeleteByGroupKey envDeleteFailB (["a"] ++ "b" :: ["c"]) =
      (some "delete failed",
        [Event.connDelete Index.main "a" "", Event.connDelete Index.main "b" ""]) := by
  have h := (c10_delete_by_group_key envDeleteFailB).2.2 ["a"] "b" ["c"] "delete failed"
    (by intro k' hk'; simp at hk'; subst hk'; rfl) rfl
  simpa using h

end ErpcCache
